import Mathlib

/-!
# Verification of the 8-bit ALU with status flags (src/main.c)

Shallow embedding of the ALU core in `src/main.c`:

* `ALUFlags`   — the four status flags Z, C, N, V (struct `ALUFlags`);
* `clear_flags` — resets all four flags (function `clear_flags`);
* `overflow_add`, `overflow_sub` — the two signed-overflow helpers;
* `alu_core`   — the `switch (op)` body of `alu_execute`;
* `alu_execute` — the full core: clear flags, run the selected branch,
  then the common Z/N post-processing;
* `evaluate`   — the spec-level entry point `evaluate(a, b, op)`,
  i.e. `alu_execute` invoked on a caller-supplied flag record.

Machine integers are modelled as `Nat` with explicit masking: 8-bit
values are `Nat`s below 256, the 16-bit intermediate `temp` is reduced
mod 2^16 where C's `uint16_t` conversion could wrap, and every
truncation `(uint8_t)x` is written `x &&& 0xFF`.  The operation
selector is a `Nat`, with `OP_ADD = 0 … OP_SHR = 6` as in the C enum;
any other value takes the `default` branch of the switch.
-/

/-- The flag record: Zero, Carry, Negative, Overflow (struct `ALUFlags`).
Each `uint8_t` field only ever holds 0 or 1, so it is modelled as `Bool`. -/
structure ALUFlags where
  Z : Bool
  C : Bool
  N : Bool
  V : Bool
deriving Repr, DecidableEq

/-- `clear_flags`: sets all four fields of the pointed-to record to 0. -/
def clear_flags (_f : ALUFlags) : ALUFlags :=
  { Z := false, C := false, N := false, V := false }

/-- Operation selector values of the C enum `ALUOp`. -/
def OP_ADD : Nat := 0

def OP_SUB : Nat := 1

def OP_AND : Nat := 2

def OP_OR : Nat := 3

def OP_XOR : Nat := 4

def OP_SHL : Nat := 5

def OP_SHR : Nat := 6

/-- `overflow_add(a, b, r)`: `(~(a ^ b) & (a ^ r) & 0x80) != 0`.
C complements in (at least) `int` width, but the result is masked with
`0x80`; for `a, b < 256` the complement restricted to bit 7 equals
`0xFF ^^^ (a ^^^ b)`. -/
def overflow_add (a b r : Nat) : Bool :=
  decide ((0xFF ^^^ (a ^^^ b)) &&& (a ^^^ r) &&& 0x80 ≠ 0)

/-- `overflow_sub(a, b, r)`: `((a ^ b) & (a ^ r) & 0x80) != 0`. -/
def overflow_sub (a b r : Nat) : Bool :=
  decide ((a ^^^ b) &&& (a ^^^ r) &&& 0x80 ≠ 0)

/-- The `switch (op)` body of `alu_execute`: given the operands, the
selector and the already-cleared flag record, produce `*out` and the
flag record as it stands before the common Z/N update.

* `OP_ADD`: `temp = a + b` in 16 bits (for `a, b ≤ 255` the sum is at
  most 510, so no 16-bit wrap can occur); `*out = temp & 0xFF`;
  `C = temp > 0xFF`; `V = overflow_add`.
* `OP_SUB`: `temp = (uint16_t)a - (uint16_t)b`, i.e. `a - b` reduced
  mod 2^16, written `(a + 0x10000 - b) % 0x10000` for `a, b < 256`;
  `*out = temp & 0xFF`; `C = a < b`; `V = overflow_sub`.
* `OP_AND` / `OP_OR` / `OP_XOR`: the bitwise result, flags untouched.
* `OP_SHL`: `C = (a & 0x80) != 0`, `*out = (uint8_t)(a << 1)`.
* `OP_SHR`: `C = (a & 0x01) != 0`, `*out = a >> 1`.
* `default`: `*out = 0`, flags untouched. -/
def alu_core (a b op : Nat) (flags : ALUFlags) : Nat × ALUFlags :=
  match op with
  | 0 =>
    let temp := a + b
    let out := temp &&& 0xFF
    (out, { flags with C := decide (temp > 0xFF), V := overflow_add a b out })
  | 1 =>
    let temp := (a + 0x10000 - b) % 0x10000
    let out := temp &&& 0xFF
    (out, { flags with C := decide (a < b), V := overflow_sub a b out })
  | 2 => (a &&& b, flags)
  | 3 => (a ||| b, flags)
  | 4 => (a ^^^ b, flags)
  | 5 => ((a <<< 1) &&& 0xFF, { flags with C := decide (a &&& 0x80 ≠ 0) })
  | 6 => (a >>> 1, { flags with C := decide (a &&& 0x01 ≠ 0) })
  | _ + 7 => (0, flags)

/-- `alu_execute(a, b, op, out, flags)`: clears the caller's flag
record, runs the selected branch, then applies the common
post-processing `Z = (*out == 0)`, `N = (*out & 0x80) != 0`.
The caller's incoming record `f` is the state threaded through the
`ALUFlags *flags` pointer. -/
def alu_execute (a b op : Nat) (f : ALUFlags) : Nat × ALUFlags :=
  let flags := clear_flags f
  let p := alu_core a b op flags
  (p.1, { p.2 with Z := decide (p.1 = 0), N := decide (p.1 &&& 0x80 ≠ 0) })

/-- The spec-level pure interface `evaluate(a, b, op) -> (result, flags)`:
`alu_execute` invoked on a caller-supplied flag record (the record's
incoming contents are irrelevant, see the statelessness theorem). -/
def evaluate (a b op : Nat) : Nat × ALUFlags :=
  alu_execute a b op { Z := false, C := false, N := false, V := false }

example : evaluate 255 1 OP_ADD = (0, ⟨true, true, false, false⟩) := by decide
example : evaluate 0x7F 1 OP_ADD = (0x80, ⟨false, false, true, true⟩) := by decide
example : evaluate 10 40 OP_SUB = (0xE2, ⟨false, true, true, false⟩) := by decide
example : evaluate 0x80 1 OP_SUB = (0x7F, ⟨false, false, false, true⟩) := by decide
example : evaluate 0x81 0 OP_SHL = (0x02, ⟨false, true, false, false⟩) := by decide
example : evaluate 0x03 0 OP_SHR = (0x01, ⟨false, true, false, false⟩) := by decide
example : evaluate 0xF0 0x0F OP_AND = (0, ⟨true, false, false, false⟩) := by decide

/-! ## Helper lemmas about the bit-level encodings -/

/-- Truncation to 8 bits: masking with `0xFF` is reduction mod 256. -/
lemma and255_eq_mod (x : Nat) : x &&& 255 = x % 256 := by
  have h := Nat.and_pow_two_sub_one_eq_mod x 8
  norm_num at h
  exact h

/-- Masking with `0x80` tests bit 7. -/
lemma and128_ne_zero_iff (x : Nat) : x &&& 128 ≠ 0 ↔ x.testBit 7 = true := by
  have h : (128 : Nat) = 2 ^ 7 := by norm_num
  rw [h, Nat.and_two_pow]
  cases hx : x.testBit 7 <;> simp

/-- The ADD overflow trick is exactly the sign-bit rule: `a` and `b`
share a sign bit and the result's sign bit differs from it. -/
lemma overflow_add_iff (a b r : Nat) :
    overflow_add a b r = true ↔
      (a.testBit 7 = b.testBit 7 ∧ ¬r.testBit 7 = a.testBit 7) := by
  unfold overflow_add
  rw [decide_eq_true_iff, and128_ne_zero_iff]
  have h255 : Nat.testBit 255 7 = true := by decide
  simp only [Nat.testBit_and, Nat.testBit_xor, h255]
  cases ha : a.testBit 7 <;> cases hb : b.testBit 7 <;> cases hr : r.testBit 7 <;> simp

/-- The SUB overflow trick is exactly the sign-bit rule: `a` and `b`
differ in sign bit and the result's sign bit differs from `a`'s. -/
lemma overflow_sub_iff (a b r : Nat) :
    overflow_sub a b r = true ↔
      (¬a.testBit 7 = b.testBit 7 ∧ ¬r.testBit 7 = a.testBit 7) := by
  unfold overflow_sub
  rw [decide_eq_true_iff, and128_ne_zero_iff]
  simp only [Nat.testBit_and, Nat.testBit_xor]
  cases ha : a.testBit 7 <;> cases hb : b.testBit 7 <;> cases hr : r.testBit 7 <;> simp

/-! ## Claim theorems -/

/-- C1: for all 8-bit operands `a`, `b`, `evaluate(a, b, Add)` returns
`(a + b) mod 256`, sets Carry iff `a + b ≥ 256`, and sets Overflow iff
`a` and `b` share sign bit 7 and the result's sign bit differs from
theirs — equivalently, iff bit 7 of `NOT(a XOR b) AND (a XOR result)`
is set. -/
theorem add_spec : ∀ a b : Fin 256,
    (evaluate a.val b.val OP_ADD).1 = (a.val + b.val) % 256 ∧
    ((evaluate a.val b.val OP_ADD).2.C = true ↔ 256 ≤ a.val + b.val) ∧
    ((evaluate a.val b.val OP_ADD).2.V = true ↔
      (a.val.testBit 7 = b.val.testBit 7 ∧
        ¬(evaluate a.val b.val OP_ADD).1.testBit 7 = a.val.testBit 7)) ∧
    ((evaluate a.val b.val OP_ADD).2.V = true ↔
      ((0xFF ^^^ (a.val ^^^ b.val)) &&&
        (a.val ^^^ (evaluate a.val b.val OP_ADD).1)).testBit 7 = true) := by
  intro a b
  have hres : (evaluate a.val b.val OP_ADD).1 = (a.val + b.val) &&& 255 := rfl
  have hC : (evaluate a.val b.val OP_ADD).2.C = decide (a.val + b.val > 255) := rfl
  have hV : (evaluate a.val b.val OP_ADD).2.V =
      overflow_add a.val b.val ((a.val + b.val) &&& 255) := rfl
  refine ⟨?_, ?_, ?_, ?_⟩
  · rw [hres, and255_eq_mod]
  · rw [hC, decide_eq_true_iff]
    omega
  · rw [hV, overflow_add_iff, hres]
  · rw [hV, hres]
    unfold overflow_add
    rw [decide_eq_true_iff, and128_ne_zero_iff]

/-- C2: for all 8-bit operands `a`, `b`, `evaluate(a, b, Subtract)`
returns `(a − b) mod 256` (as integers), sets Carry iff `a < b`
(unsigned borrow), and sets Overflow iff `a` and `b` differ in sign
bit 7 and the result's sign bit differs from `a`'s — equivalently, iff
bit 7 of `(a XOR b) AND (a XOR result)` is set. -/
theorem sub_spec : ∀ a b : Fin 256,
    ((evaluate a.val b.val OP_SUB).1 : Int) = ((a.val : Int) - (b.val : Int)) % 256 ∧
    ((evaluate a.val b.val OP_SUB).2.C = true ↔ a.val < b.val) ∧
    ((evaluate a.val b.val OP_SUB).2.V = true ↔
      (¬a.val.testBit 7 = b.val.testBit 7 ∧
        ¬(evaluate a.val b.val OP_SUB).1.testBit 7 = a.val.testBit 7)) ∧
    ((evaluate a.val b.val OP_SUB).2.V = true ↔
      ((a.val ^^^ b.val) &&&
        (a.val ^^^ (evaluate a.val b.val OP_SUB).1)).testBit 7 = true) := by
  intro a b
  have ha := a.isLt
  have hb := b.isLt
  have hres : (evaluate a.val b.val OP_SUB).1 =
      ((a.val + 0x10000 - b.val) % 0x10000) &&& 255 := rfl
  have hC : (evaluate a.val b.val OP_SUB).2.C = decide (a.val < b.val) := rfl
  have hV : (evaluate a.val b.val OP_SUB).2.V =
      overflow_sub a.val b.val (((a.val + 0x10000 - b.val) % 0x10000) &&& 255) := rfl
  refine ⟨?_, ?_, ?_, ?_⟩
  · rw [hres, and255_eq_mod]
    omega
  · rw [hC, decide_eq_true_iff]
  · rw [hV, overflow_sub_iff, hres]
  · rw [hV, hres]
    unfold overflow_sub
    rw [decide_eq_true_iff, and128_ne_zero_iff]

/-- C3: for all 8-bit operands and every operation tag (recognized or
not), the returned flags satisfy Zero iff the returned result is 0 and
Negative iff bit 7 of the returned result is set. -/
theorem zero_negative_spec : ∀ (a b : Fin 256) (op : Nat),
    ((evaluate a.val b.val op).2.Z = true ↔ (evaluate a.val b.val op).1 = 0) ∧
    ((evaluate a.val b.val op).2.N = true ↔ (evaluate a.val b.val op).1.testBit 7 = true) := by
  intro a b op
  constructor
  · show decide ((evaluate a.val b.val op).1 = 0) = true ↔ _
    rw [decide_eq_true_iff]
  · show decide ((evaluate a.val b.val op).1 &&& 0x80 ≠ 0) = true ↔ _
    rw [decide_eq_true_iff]
    exact and128_ne_zero_iff _

/-- C4: for all 8-bit operands and every operation tag outside `{0..6}`
(the closed enum `OP_ADD … OP_SHR`), `evaluate` returns result 0 with
Zero set and Carry, Negative, Overflow clear — a graceful default, no
failure path. -/
theorem unknown_op_spec : ∀ (a b : Fin 256) (op : Nat), 7 ≤ op →
    evaluate a.val b.val op = (0, { Z := true, C := false, N := false, V := false }) := by
  intro a b op h
  obtain ⟨n, rfl⟩ : ∃ n, op = n + 7 := ⟨op - 7, by omega⟩
  have h1 : alu_core a.val b.val (n + 7) (clear_flags ⟨false, false, false, false⟩) =
      (0, ⟨false, false, false, false⟩) := rfl
  simp only [evaluate, alu_execute, h1]
  rfl

/-- Witness for C4 at `a = 5`, `b = 7`, `op = 9`. -/
theorem unknown_op_spec_witness :
    evaluate 5 7 9 = (0, { Z := true, C := false, N := false, V := false }) :=
  unknown_op_spec ⟨5, by decide⟩ ⟨7, by decide⟩ 9 (by decide)

/-- C5: for all 8-bit operands, BitwiseAnd/Or/Xor return the bitwise
`a AND b`, `a OR b`, `a XOR b` respectively, each with Carry = 0 and
Overflow = 0. -/
theorem bitwise_spec : ∀ a b : Fin 256,
    ((evaluate a.val b.val OP_AND).1 = a.val &&& b.val ∧
      (evaluate a.val b.val OP_AND).2.C = false ∧
      (evaluate a.val b.val OP_AND).2.V = false) ∧
    ((evaluate a.val b.val OP_OR).1 = a.val ||| b.val ∧
      (evaluate a.val b.val OP_OR).2.C = false ∧
      (evaluate a.val b.val OP_OR).2.V = false) ∧
    ((evaluate a.val b.val OP_XOR).1 = a.val ^^^ b.val ∧
      (evaluate a.val b.val OP_XOR).2.C = false ∧
      (evaluate a.val b.val OP_XOR).2.V = false) := by
  intro a b
  exact ⟨⟨rfl, rfl, rfl⟩, ⟨rfl, rfl, rfl⟩, ⟨rfl, rfl, rfl⟩⟩

/-- C6: for all 8-bit operands, ShiftLeftLogical returns `a` shifted
left by 1 truncated to 8 bits, sets Carry to the original bit 7 of
`a`, leaves Overflow 0, and its output does not depend on `b`. -/
theorem shl_spec : ∀ a b b' : Fin 256,
    (evaluate a.val b.val OP_SHL).1 = (2 * a.val) % 256 ∧
    ((evaluate a.val b.val OP_SHL).2.C = true ↔ a.val.testBit 7 = true) ∧
    (evaluate a.val b.val OP_SHL).2.V = false ∧
    evaluate a.val b.val OP_SHL = evaluate a.val b'.val OP_SHL := by
  intro a b b'
  have hres : (evaluate a.val b.val OP_SHL).1 = (a.val <<< 1) &&& 255 := rfl
  have hC : (evaluate a.val b.val OP_SHL).2.C = decide (a.val &&& 0x80 ≠ 0) := rfl
  refine ⟨?_, ?_, rfl, rfl⟩
  · rw [hres, and255_eq_mod, Nat.shiftLeft_eq, pow_one]
    omega
  · rw [hC, decide_eq_true_iff]
    exact and128_ne_zero_iff _

/-- C7: for all 8-bit operands, ShiftRightLogical returns `a` shifted
right by 1 with the vacated bit filled with 0 (`a / 2`), sets Carry to
the original bit 0 of `a`, leaves Overflow 0, and its output does not
depend on `b`. -/
theorem shr_spec : ∀ a b b' : Fin 256,
    (evaluate a.val b.val OP_SHR).1 = a.val / 2 ∧
    ((evaluate a.val b.val OP_SHR).2.C = true ↔ a.val.testBit 0 = true) ∧
    (evaluate a.val b.val OP_SHR).2.V = false ∧
    evaluate a.val b.val OP_SHR = evaluate a.val b'.val OP_SHR := by
  intro a b b'
  have hres : (evaluate a.val b.val OP_SHR).1 = a.val >>> 1 := rfl
  have hC : (evaluate a.val b.val OP_SHR).2.C = decide (a.val &&& 0x01 ≠ 0) := rfl
  refine ⟨?_, ?_, rfl, rfl⟩
  · rw [hres, Nat.shiftRight_eq_div_pow, pow_one]
  · rw [hC, decide_eq_true_iff, Nat.and_one_is_mod, Nat.testBit_zero, decide_eq_true_iff]
    omega

/-- C8: the core is deterministic and stateless: its output does not
depend on the contents of the caller's incoming flag record (all four
flags are reset before being recomputed), so any two invocations with
identical operands and operation agree, and agree with the pure
interface `evaluate`. -/
theorem stateless_spec : ∀ (a b op : Nat) (f f' : ALUFlags),
    alu_execute a b op f = alu_execute a b op f' ∧
    alu_execute a b op f = evaluate a b op := by
  intro a b op f f'
  exact ⟨rfl, rfl⟩

/-- C9: ShiftRightLogical never sets the Negative flag: the logical
right shift clears bit 7 of the result, for every 8-bit input. -/
theorem shr_negative_spec : ∀ a b : Fin 256,
    (evaluate a.val b.val OP_SHR).2.N = false := by
  intro a b
  have ha := a.isLt
  have hN : (evaluate a.val b.val OP_SHR).2.N =
      decide ((a.val >>> 1) &&& 0x80 ≠ 0) := rfl
  rw [hN, decide_eq_false_iff_not]
  intro hne
  rw [and128_ne_zero_iff] at hne
  have hlt : a.val >>> 1 < 2 ^ 7 := by
    rw [Nat.shiftRight_eq_div_pow, pow_one]
    show a.val / 2 < 128
    omega
  rw [Nat.testBit_eq_false_of_lt hlt] at hne
  exact Bool.false_ne_true hne

/-- C10: Subtract sets the Zero flag exactly when `a = b`; hence the
Zero and Carry (borrow) flags are never both set for Subtract. -/
theorem sub_zero_carry_spec : ∀ a b : Fin 256,
    ((evaluate a.val b.val OP_SUB).2.Z = true ↔ a = b) ∧
    ¬((evaluate a.val b.val OP_SUB).2.Z = true ∧
      (evaluate a.val b.val OP_SUB).2.C = true) := by
  intro a b
  have ha := a.isLt
  have hb := b.isLt
  have hZ : (evaluate a.val b.val OP_SUB).2.Z =
      decide ((((a.val + 0x10000 - b.val) % 0x10000) &&& 255) = 0) := rfl
  have hC : (evaluate a.val b.val OP_SUB).2.C = decide (a.val < b.val) := rfl
  simp only [hZ, hC, decide_eq_true_iff, and255_eq_mod, Fin.ext_iff]
  constructor
  · omega
  · rintro ⟨h1, h2⟩
    omega
